import Mathlib

/-!
Verification of the hybrid reactive store (`HybridSignal` in
`src/utils/hooks/useHybridSignal.ts`) of the `hybrid-storage` repository.

The store keeps an in-memory JSON value per key, fans out notifications to a
subscriber set, persists to an asynchronous durable backend (optionally
debounced through a single cancellable timer), and reconciles external backend
writes by comparing `JSON.stringify` serializations.

We shallowly embed the class as a pure state machine: each method becomes a
state transformer on `SignalState`.  Asynchronous backend calls are modelled
as atomic steps carrying an explicit `fail` flag (the event loop is
single-threaded; every `await` boundary is a separate step such as
`fireDebounce` or `loadResolve`).  Observable effects are recorded in traces:
`backendWrites` logs every `storage.setItem` the store performs, and
`notifications` logs every subscriber callback invocation with its argument.
-/

/-- JSON-representable JavaScript values, as handled by `JSON.stringify` in
`checkForExternalChanges`.  Object fields keep their insertion order, exactly
as JavaScript objects do. -/
inductive JVal where
  | null : JVal
  | bool (b : Bool) : JVal
  | num (n : Int) : JVal
  | str (s : List Char) : JVal
  | arr (xs : List JVal) : JVal
  | obj (kvs : List (List Char × JVal)) : JVal

/-- Decimal digit character for `n < 10` (used by number serialization). -/
def digitChar (n : Nat) : Char :=
  match n with
  | 0 => '0' | 1 => '1' | 2 => '2' | 3 => '3' | 4 => '4'
  | 5 => '5' | 6 => '6' | 7 => '7' | 8 => '8' | _ => '9'

/-- Decimal digits of a natural number, most significant first, as produced by
JavaScript number-to-string conversion for integers. -/
def natDigits (n : Nat) : List Char :=
  if h : n < 10 then [digitChar n]
  else natDigits (n / 10) ++ [digitChar (n % 10)]
decreasing_by exact Nat.div_lt_self (by omega) (by omega)

/-- Serialization of an integer, `'-'` sign first for negatives, as
`JSON.stringify` renders integral numbers. -/
def intChars (n : Int) : List Char :=
  if n < 0 then '-' :: natDigits n.natAbs else natDigits n.toNat

/-- JSON string escaping of one character (quote and backslash). -/
def escChar (c : Char) : List Char :=
  if c = '"' then ['\\', '"']
  else if c = '\\' then ['\\', '\\']
  else [c]

/-- JSON string escaping, character by character. -/
def escapeL : List Char → List Char
  | [] => []
  | c :: t => escChar c ++ escapeL t

mutual
/-- The character stream produced by `JSON.stringify` on a `JVal`: object
fields are emitted in insertion order, which is what makes the comparison in
`checkForExternalChanges` insertion-order sensitive. -/
def jstrL : JVal → List Char
  | JVal.null => ['n', 'u', 'l', 'l']
  | JVal.bool true => ['t', 'r', 'u', 'e']
  | JVal.bool false => ['f', 'a', 'l', 's', 'e']
  | JVal.num n => intChars n
  | JVal.str s => '"' :: (escapeL s ++ ['"'])
  | JVal.arr xs => '[' :: (jstrArr xs ++ [']'])
  | JVal.obj kvs => '{' :: (jstrObj kvs ++ ['}'])

/-- Comma-separated serialization of array elements. -/
def jstrArr : List JVal → List Char
  | [] => []
  | [x] => jstrL x
  | x :: y :: t => jstrL x ++ ',' :: jstrArr (y :: t)

/-- Comma-separated serialization of object fields, each as
`"key":value`. -/
def jstrObj : List (List Char × JVal) → List Char
  | [] => []
  | [(k, v)] => '"' :: (escapeL k ++ '"' :: ':' :: jstrL v)
  | (k, v) :: e :: t =>
      '"' :: (escapeL k ++ '"' :: ':' :: jstrL v) ++ ',' :: jstrObj (e :: t)
end

/-- Shapes that can follow a complete serialized value inside a larger JSON
serialization: end of input, or a comma, closing bracket, closing brace or
colon.  Used as a side condition when cancelling serialization prefixes. -/
def sepOk : List Char → Bool
  | [] => true
  | c :: _ => (c == ',') || (c == ']') || (c == '}') || (c == ':')

/-- Numeric value of a decimal digit character. -/
def digitVal (c : Char) : Nat := c.toNat - 48

/-- Constructor tag of a JSON value. -/
def jtag : JVal → Nat
  | JVal.null => 0
  | JVal.bool _ => 1
  | JVal.num _ => 2
  | JVal.str _ => 3
  | JVal.arr _ => 4
  | JVal.obj _ => 5

/-- The constructor tag a serialization's first character determines. -/
def chtag (c : Char) : Nat :=
  if c = 'n' then 0
  else if c = 't' || c = 'f' then 1
  else if c.isDigit || c = '-' then 2
  else if c = '"' then 3
  else if c = '[' then 4
  else if c = '{' then 5
  else 6

/-- State of one `HybridSignal` instance together with the backend slot for
its key and the observable traces.  Field names follow the class fields. -/
structure SignalState where
  /-- `this.currentValue` — authoritative in-memory value. -/
  currentValue : JVal
  /-- `this.defaultValue`. -/
  defaultValue : JVal
  /-- `this.isInitialized` — false until the initial `load()` resolves. -/
  isInitialized : Bool
  /-- `this.debounceTimeout` — an armed timer, holding the value the
  `setTimeout` closure captured at arm time; `none` when no timer pending. -/
  debounceTimeout : Option JVal
  /-- `this.lastStorageValue : T | null` — initialized to `null`, which for
  JSON values is the value `JVal.null`. -/
  lastStorageValue : JVal
  /-- `this.subscribers` — a `Set` of callbacks, modelled by callback ids in
  insertion order without duplicates. -/
  subscribers : List Nat
  /-- The durable backend slot for `this.key`: `storage.getItem` yields
  `none` when absent (JS `null`). -/
  backend : Option JVal
  /-- Trace of every successful `storage.setItem` call made by this store. -/
  backendWrites : List JVal
  /-- Trace of subscriber callback invocations `(callback, argument)`. -/
  notifications : List (Nat × JVal)

namespace SignalState

/-- State right after `new HybridSignal(storage, key, defaultValue)`, before
the asynchronous `load()` resolves. -/
def initState (backend : Option JVal) (default : JVal) : SignalState :=
  { currentValue := default
    defaultValue := default
    isInitialized := false
    debounceTimeout := none
    lastStorageValue := JVal.null
    subscribers := []
    backend := backend
    backendWrites := []
    notifications := [] }

/-- Method `notify()`: invokes every subscriber with `currentValue`, but only once
`isInitialized` is set. -/
def notify (s : SignalState) : SignalState :=
  if s.isInitialized then
    { s with notifications :=
        s.notifications ++ s.subscribers.map (fun cb => (cb, s.currentValue)) }
  else s

/-- Resolution of the constructor's `load()` when `storage.getItem`
succeeds: a `null` result falls back to the default. -/
def loadResolve (s : SignalState) : SignalState :=
  let storageValue := s.backend.getD s.defaultValue
  notify { s with
    lastStorageValue := storageValue
    currentValue := storageValue
    isInitialized := true }

/-- Resolution of `load()` when `storage.getItem` rejects: falls back to the
default value and still initializes. -/
def loadFail (s : SignalState) : SignalState :=
  notify { s with currentValue := s.defaultValue, isInitialized := true }

/-- Method `persistToStorage(value)`: wraps `storage.setItem` in try/catch.  On
failure nothing changes (the error is only logged); on success the backend
slot, the write trace and `lastStorageValue` are updated. -/
def persistToStorage (fail : Bool) (v : JVal) (s : SignalState) : SignalState :=
  if fail then s
  else { s with
    backend := some v
    backendWrites := s.backendWrites ++ [v]
    lastStorageValue := v }

/-- Method `set(value, {persist, debounce})`: synchronously overwrites
`currentValue` and notifies; when persisting with `debounce` it clears any
pending timer and arms a new one whose closure captured `value`; without
`debounce` it starts `persistToStorage` at once (`fail` says whether that
backend write fails). -/
def set (v : JVal) (persist debounce fail : Bool) (s : SignalState) : SignalState :=
  let s1 := notify { s with currentValue := v }
  if persist then
    if debounce then { s1 with debounceTimeout := some v }
    else persistToStorage fail v s1
  else s1

/-- Method `update(updater, options)`: computes the new value from `currentValue`
and delegates to `set`. -/
def update (f : JVal → JVal) (persist debounce fail : Bool) (s : SignalState) :
    SignalState :=
  set (f s.currentValue) persist debounce fail s

/-- The armed debounce timer fires: runs the stored closure, which persists
the value captured when the timer was armed. -/
def fireDebounce (fail : Bool) (s : SignalState) : SignalState :=
  match s.debounceTimeout with
  | none => s
  | some v => persistToStorage fail v { s with debounceTimeout := none }

/-- Method `setAsync(value)`: overwrites memory, notifies, then awaits
`persistToStorage`.  It never touches `debounceTimeout`. -/
def setAsync (fail : Bool) (v : JVal) (s : SignalState) : SignalState :=
  persistToStorage fail v (notify { s with currentValue := v })

/-- Method `updateAsync(updater)`: delegates to `setAsync`. -/
def updateAsync (fail : Bool) (f : JVal → JVal) (s : SignalState) : SignalState :=
  setAsync fail (f s.currentValue) s

/-- Method `checkForExternalChanges()`: reads the backend (a `null` result falls
back to the default), compares `JSON.stringify` serializations with
`lastStorageValue`, and on divergence adopts the backend value, notifies and
returns `true`.  A read failure returns `false` and changes nothing. -/
def checkForExternalChanges (fail : Bool) (s : SignalState) :
    SignalState × Bool :=
  if fail then (s, false)
  else
    let storageValue := s.backend.getD s.defaultValue
    if jstrL storageValue ≠ jstrL s.lastStorageValue then
      (notify { s with
          lastStorageValue := storageValue
          currentValue := storageValue }, true)
    else (s, false)

/-- Method `remove()`: awaits `storage.removeItem`; only on success does it reset
memory to the default, update `lastStorageValue` and notify.  The catch
block only logs. -/
def remove (fail : Bool) (s : SignalState) : SignalState :=
  if fail then s
  else notify { s with
    backend := none
    currentValue := s.defaultValue
    lastStorageValue := s.defaultValue }

/-- Method `subscribe(callback)`: adds the callback to the `Set` (a no-op when
already present) and, only if `isInitialized`, immediately invokes it once
with `currentValue`. -/
def subscribe (cb : Nat) (s : SignalState) : SignalState :=
  let s1 := { s with subscribers :=
    if s.subscribers.contains cb then s.subscribers else s.subscribers ++ [cb] }
  if s1.isInitialized then
    { s1 with notifications := s1.notifications ++ [(cb, s1.currentValue)] }
  else s1

/-- The unsubscribe closure returned by `subscribe`: deletes the callback
from the `Set`. -/
def unsubscribe (cb : Nat) (s : SignalState) : SignalState :=
  { s with subscribers := s.subscribers.erase cb }

/-- Method `hasSubscribers()`: whether the subscriber `Set` is non-empty. -/
def hasSubscribers (s : SignalState) : Bool :=
  !s.subscribers.isEmpty

/-- A writer that bypasses the store and writes straight to the durable
backend (`backend.set(key, y)` from another tab or script). -/
def externalWrite (y : JVal) (s : SignalState) : SignalState :=
  { s with backend := some y }

/-- Method `IndexedDBHybridSignal.subscribe` (`useIndexedDBHybridSignal.ts`): same
`Set` insertion, but the immediate invocation is guarded by
`currentValue !== undefined`, which always holds for the JSON values modelled
here — it does not wait for initialization. -/
def subscribeIDB (cb : Nat) (s : SignalState) : SignalState :=
  let s1 := { s with subscribers :=
    if s.subscribers.contains cb then s.subscribers else s.subscribers ++ [cb] }
  { s1 with notifications := s1.notifications ++ [(cb, s1.currentValue)] }

/-- Sequence of `set(v, {persist:true, debounce:true})` calls issued without
any intervening suspension point (no await, no timer firing). -/
def setSeq (vs : List JVal) (s : SignalState) : SignalState :=
  vs.foldl (fun t v => t.set v true true false) s

/-- A convenient fully-initialized (`Ready`) store state with empty traces
and no pending timer, used to instantiate theorems. -/
def readyState (cur last : JVal) (backend : Option JVal) (default : JVal)
    (subs : List Nat) : SignalState :=
  { currentValue := cur
    defaultValue := default
    isInitialized := true
    debounceTimeout := none
    lastStorageValue := last
    subscribers := subs
    backend := backend
    backendWrites := []
    notifications := [] }

end SignalState

/-- The module-level `hybridSignalRegistry` (a `Map` from signal key to live
store) and the get-or-create step of the `useHybridSignal` effect, as an
association list from keys to store ids (indexes into a heap of store
states): an existing entry is returned as is, otherwise a fresh store id is
registered. -/
def attach (reg : List (String × Nat)) (key : String) (fresh : Nat) :
    List (String × Nat) × Nat :=
  match reg.lookup key with
  | some id => (reg, id)
  | none => ((key, fresh) :: reg, fresh)

/-- Byte-wise order on object keys, used only to normalize key order when
stating the spec's structural equality. -/
def keyLe : List Char → List Char → Bool
  | [], _ => true
  | _ :: _, [] => false
  | c :: s, d :: t =>
      if c.toNat < d.toNat then true
      else if d.toNat < c.toNat then false
      else keyLe s t

/-- Insertion into a key-ordered field list. -/
def insKV (p : List Char × JVal) :
    List (List Char × JVal) → List (List Char × JVal)
  | [] => [p]
  | q :: t => if keyLe p.1 q.1 then p :: q :: t else q :: insKV p t

/-- Insertion sort of object fields by key. -/
def sortKVs : List (List Char × JVal) → List (List Char × JVal)
  | [] => []
  | p :: t => insKV p (sortKVs t)

mutual
/-- Canonical form of a JSON value in which every object's fields are sorted
by key; two values are structurally equal in the spec's sense (same keys and
nested values, regardless of property insertion order) exactly when their
canonical forms coincide. -/
def normalizeJ : JVal → JVal
  | JVal.null => JVal.null
  | JVal.bool b => JVal.bool b
  | JVal.num n => JVal.num n
  | JVal.str s => JVal.str s
  | JVal.arr xs => JVal.arr (normalizeArr xs)
  | JVal.obj kvs => JVal.obj (sortKVs (normalizeKVs kvs))

/-- Map of `normalizeJ` over array elements. -/
def normalizeArr : List JVal → List JVal
  | [] => []
  | x :: t => normalizeJ x :: normalizeArr t

/-- Map of `normalizeJ` over object field values. -/
def normalizeKVs : List (List Char × JVal) → List (List Char × JVal)
  | [] => []
  | (k, v) :: t => (k, normalizeJ v) :: normalizeKVs t
end

/-- Modelled from the spec: the deep value equality the spec prescribes for
reconciliation — structural (same keys and nested values), independent of
object property insertion order and of reference identity.  Stated by
comparing key-order normalizations. -/
def specDeepEqual (a b : JVal) : Prop :=
  normalizeJ a = normalizeJ b

namespace SignalState

@[simp] lemma notify_currentValue (s : SignalState) :
    (notify s).currentValue = s.currentValue := by
  unfold notify; split <;> rfl

@[simp] lemma notify_defaultValue (s : SignalState) :
    (notify s).defaultValue = s.defaultValue := by
  unfold notify; split <;> rfl

@[simp] lemma notify_isInitialized (s : SignalState) :
    (notify s).isInitialized = s.isInitialized := by
  unfold notify; split <;> rfl

@[simp] lemma notify_debounceTimeout (s : SignalState) :
    (notify s).debounceTimeout = s.debounceTimeout := by
  unfold notify; split <;> rfl

@[simp] lemma notify_lastStorageValue (s : SignalState) :
    (notify s).lastStorageValue = s.lastStorageValue := by
  unfold notify; split <;> rfl

@[simp] lemma notify_subscribers (s : SignalState) :
    (notify s).subscribers = s.subscribers := by
  unfold notify; split <;> rfl

@[simp] lemma notify_backend (s : SignalState) :
    (notify s).backend = s.backend := by
  unfold notify; split <;> rfl

@[simp] lemma notify_backendWrites (s : SignalState) :
    (notify s).backendWrites = s.backendWrites := by
  unfold notify; split <;> rfl

lemma notify_notifications (s : SignalState) :
    (notify s).notifications =
      s.notifications ++
        (if s.isInitialized then s.subscribers.map (fun cb => (cb, s.currentValue))
         else []) := by
  unfold notify; split <;> simp_all

/-- A `set` with `persist` and `debounce` only overwrites the value, emits
notifications and re-arms the timer with the value it captured. -/
lemma set_debounce_eq (v : JVal) (fail : Bool) (s : SignalState) :
    s.set v true true fail =
      { notify { s with currentValue := v } with debounceTimeout := some v } := by
  rfl

@[simp] lemma set_debounce_currentValue (v : JVal) (fail : Bool) (s : SignalState) :
    (s.set v true true fail).currentValue = v := by
  rw [set_debounce_eq]; simp

@[simp] lemma set_debounce_backendWrites (v : JVal) (fail : Bool) (s : SignalState) :
    (s.set v true true fail).backendWrites = s.backendWrites := by
  rw [set_debounce_eq]; simp

@[simp] lemma set_debounce_backend (v : JVal) (fail : Bool) (s : SignalState) :
    (s.set v true true fail).backend = s.backend := by
  rw [set_debounce_eq]; simp

@[simp] lemma set_debounce_debounceTimeout (v : JVal) (fail : Bool) (s : SignalState) :
    (s.set v true true fail).debounceTimeout = some v := by
  rw [set_debounce_eq]

@[simp] lemma set_debounce_lastStorageValue (v : JVal) (fail : Bool) (s : SignalState) :
    (s.set v true true fail).lastStorageValue = s.lastStorageValue := by
  rw [set_debounce_eq]; simp

lemma setSeq_spec (vs : List JVal) : ∀ s : SignalState, vs ≠ [] →
    (setSeq vs s).backendWrites = s.backendWrites ∧
    (setSeq vs s).backend = s.backend ∧
    (setSeq vs s).debounceTimeout = some (vs.getLastD JVal.null) ∧
    (setSeq vs s).currentValue = vs.getLastD JVal.null := by
  induction vs with
  | nil => intro s h; exact absurd rfl h
  | cons v tl ih =>
    intro s _
    cases tl with
    | nil => simp [setSeq]
    | cons w tl2 =>
      have h := ih (s.set v true true false) (by simp)
      simpa [setSeq, List.foldl_cons] using h

lemma getLastD_take (vs : List JVal) :
    ∀ i d, i < vs.length → (vs.take (i + 1)).getLastD d = vs.getD i d := by
  induction vs with
  | nil => simp
  | cons v tl ih =>
    intro i d hi
    cases i with
    | zero => simp
    | succ j =>
      have hj : j < tl.length := by simpa using hi
      have h1 := ih j v hj
      have h2 := ih j d hj
      have hget : tl.getD j v = tl.getD j d := by
        rw [List.getD_eq_getElem?_getD, List.getD_eq_getElem?_getD,
          List.getElem?_eq_getElem hj]
        simp
      simp only [List.take_succ_cons, List.getLastD_cons, List.getD_cons_succ]
      rw [h1, hget]

end SignalState

namespace SignalState

@[simp] lemma subscribe_backend (cb : Nat) (s : SignalState) :
    (subscribe cb s).backend = s.backend := by
  unfold subscribe; dsimp only; split <;> rfl

@[simp] lemma subscribe_defaultValue (cb : Nat) (s : SignalState) :
    (subscribe cb s).defaultValue = s.defaultValue := by
  unfold subscribe; dsimp only; split <;> rfl

@[simp] lemma subscribe_currentValue (cb : Nat) (s : SignalState) :
    (subscribe cb s).currentValue = s.currentValue := by
  unfold subscribe; dsimp only; split <;> rfl

@[simp] lemma subscribe_isInitialized (cb : Nat) (s : SignalState) :
    (subscribe cb s).isInitialized = s.isInitialized := by
  unfold subscribe; dsimp only; split <;> rfl

@[simp] lemma unsubscribe_subscribers (cb : Nat) (s : SignalState) :
    (unsubscribe cb s).subscribers = s.subscribers.erase cb := rfl

lemma subscribe_subscribers (cb : Nat) (s : SignalState) :
    (subscribe cb s).subscribers =
      if s.subscribers.contains cb then s.subscribers
      else s.subscribers ++ [cb] := by
  unfold subscribe; dsimp only; split <;> rfl

/-- Running `fireDebounce` on a state whose timer is armed with `v` runs
`persistToStorage v` on the state with the timer spent. -/
lemma fireDebounce_armed {s : SignalState} {v : JVal} (fail : Bool)
    (h : s.debounceTimeout = some v) :
    fireDebounce fail s =
      persistToStorage fail v { s with debounceTimeout := none } := by
  unfold fireDebounce; rw [h]

@[simp] lemma persistToStorage_fail (v : JVal) (s : SignalState) :
    persistToStorage true v s = s := rfl

end SignalState

/-- C7: a `set` (or `update`) whose triggered backend write fails still
returns normally (the transformer is total; the rejection is swallowed by
`persistToStorage`'s catch) and leaves the in-memory `currentValue` at the
value just set — no rollback to the previously persisted value; the backend
slot, write trace and `lastStorageValue` are simply left untouched.  This
covers both the immediate (`debounce:false`) write and the debounced write
failing when the timer fires. -/
theorem set_persist_failure_keeps_memory (s : SignalState) (v : JVal)
    (f : JVal → JVal) :
    ((s.set v true false true).currentValue = v ∧
      (s.set v true false true).backend = s.backend ∧
      (s.set v true false true).backendWrites = s.backendWrites ∧
      (s.set v true false true).lastStorageValue = s.lastStorageValue) ∧
    ((SignalState.fireDebounce true (s.set v true true false)).currentValue = v ∧
      (SignalState.fireDebounce true (s.set v true true false)).backend = s.backend ∧
      (SignalState.fireDebounce true (s.set v true true false)).backendWrites =
        s.backendWrites) ∧
    (s.update f true false true).currentValue = f s.currentValue := by
  have harm := SignalState.fireDebounce_armed (s := s.set v true true false)
    (v := v) true (by simp)
  refine ⟨?_, ?_, ?_⟩
  · simp [SignalState.set, SignalState.persistToStorage]
  · rw [harm]; simp
  · simp [SignalState.update, SignalState.set, SignalState.persistToStorage]

/-- Counterexample to C8: when `storage.removeItem` rejects, the whole
tail of `remove()` is skipped by the catch block, so memory is NOT reset to
the default — `currentValue` keeps its old value and nobody is notified,
contradicting the claim that memory still resets on a failed delete. -/
theorem remove_failure_keeps_memory_cex :
    (SignalState.remove true
        (SignalState.readyState (JVal.num 5) (JVal.num 5) (some (JVal.num 5))
          (JVal.num 0) [0])).currentValue = JVal.num 5 ∧
    (SignalState.readyState (JVal.num 5) (JVal.num 5) (some (JVal.num 5))
        (JVal.num 0) [0]).defaultValue = JVal.num 0 ∧
    (SignalState.remove true
        (SignalState.readyState (JVal.num 5) (JVal.num 5) (some (JVal.num 5))
          (JVal.num 0) [0])).currentValue ≠
      (SignalState.readyState (JVal.num 5) (JVal.num 5) (some (JVal.num 5))
        (JVal.num 0) [0]).defaultValue ∧
    (SignalState.remove true
        (SignalState.readyState (JVal.num 5) (JVal.num 5) (some (JVal.num 5))
          (JVal.num 0) [0])).notifications = [] := by
  refine ⟨rfl, rfl, ?_, rfl⟩
  intro h
  rw [show (SignalState.remove true
      (SignalState.readyState (JVal.num 5) (JVal.num 5) (some (JVal.num 5))
        (JVal.num 0) [0])).currentValue = JVal.num 5 from rfl] at h
  rw [show (SignalState.readyState (JVal.num 5) (JVal.num 5) (some (JVal.num 5))
      (JVal.num 0) [0]).defaultValue = JVal.num 0 from rfl] at h
  injection h with h'
  omega

/-- C8 as amended: a failed backend delete leaves the store completely
unchanged (no memory reset, no notification); only a successful delete
resets `currentValue` and `lastStorageValue` to the default, clears the
backend slot and notifies. -/
theorem remove_resets_only_on_success (s : SignalState) :
    SignalState.remove true s = s ∧
    (SignalState.remove false s).currentValue = s.defaultValue ∧
    (SignalState.remove false s).lastStorageValue = s.defaultValue ∧
    (SignalState.remove false s).backend = none ∧
    (SignalState.remove false s).notifications =
      s.notifications ++
        (if s.isInitialized then
          s.subscribers.map (fun cb => (cb, s.defaultValue)) else []) := by
  refine ⟨rfl, by simp [SignalState.remove], by simp [SignalState.remove],
    by simp [SignalState.remove], ?_⟩
  simp [SignalState.remove, SignalState.notify_notifications]

/-- Counterexample to C4: `setAsync` does not touch `debounceTimeout`, so a
timer armed before it (here holding the superseded value `1`) stays pending
and, when it fires, writes `1` to the backend after `setAsync`'s own write
of `2` — the claim said the pending timer is canceled and the superseded
value never reaches the backend afterwards. -/
theorem setAsync_keeps_pending_timer_cex :
    (SignalState.setAsync false (JVal.num 2)
        { SignalState.readyState (JVal.num 1) JVal.null none (JVal.num 0) [] with
          debounceTimeout := some (JVal.num 1) }).debounceTimeout =
      some (JVal.num 1) ∧
    (SignalState.fireDebounce false
        (SignalState.setAsync false (JVal.num 2)
          { SignalState.readyState (JVal.num 1) JVal.null none (JVal.num 0) [] with
            debounceTimeout := some (JVal.num 1) })).backendWrites =
      [JVal.num 2, JVal.num 1] :=
  ⟨rfl, rfl⟩

/-- C4 as amended: `setAsync` performs its own immediate write but leaves
any pending debounce timer armed with the value that timer captured; when
that timer later fires, the superseded debounced value is written to the
backend after `setAsync`'s write. -/
theorem setAsync_preserves_timer (s : SignalState) (v w : JVal) (fail : Bool)
    (h : s.debounceTimeout = some w) :
    (SignalState.setAsync fail v s).debounceTimeout = some w ∧
    (SignalState.fireDebounce false (SignalState.setAsync false v s)).backendWrites =
      s.backendWrites ++ [v, w] ∧
    (SignalState.fireDebounce false (SignalState.setAsync false v s)).backend =
      some w := by
  have h1 : (SignalState.setAsync false v s).debounceTimeout = some w := by
    simp [SignalState.setAsync, SignalState.persistToStorage, h]
  have harm := SignalState.fireDebounce_armed (s := SignalState.setAsync false v s)
    (v := w) false h1
  constructor
  · cases fail <;> simp [SignalState.setAsync, SignalState.persistToStorage, h]
  · rw [harm]
    simp [SignalState.setAsync, SignalState.persistToStorage]

/-- Witness for C4's amended theorem at a concrete armed state. -/
theorem setAsync_preserves_timer_witness :
    ({ SignalState.readyState (JVal.num 1) JVal.null none (JVal.num 0) [] with
        debounceTimeout := some (JVal.num 1) } : SignalState).debounceTimeout =
      some (JVal.num 1) ∧
    ((SignalState.setAsync false (JVal.num 2)
        { SignalState.readyState (JVal.num 1) JVal.null none (JVal.num 0) [] with
          debounceTimeout := some (JVal.num 1) }).debounceTimeout =
      some (JVal.num 1) ∧
    (SignalState.fireDebounce false (SignalState.setAsync false (JVal.num 2)
        { SignalState.readyState (JVal.num 1) JVal.null none (JVal.num 0) [] with
          debounceTimeout := some (JVal.num 1) })).backendWrites =
      ({ SignalState.readyState (JVal.num 1) JVal.null none (JVal.num 0) [] with
          debounceTimeout := some (JVal.num 1) } : SignalState).backendWrites ++
        [JVal.num 2, JVal.num 1] ∧
    (SignalState.fireDebounce false (SignalState.setAsync false (JVal.num 2)
        { SignalState.readyState (JVal.num 1) JVal.null none (JVal.num 0) [] with
          debounceTimeout := some (JVal.num 1) })).backend = some (JVal.num 1)) :=
  ⟨rfl, setAsync_preserves_timer _ (JVal.num 2) (JVal.num 1) false rfl⟩

/-- Counterexample to C6: arm the timer with `set(1, {persist:true,
debounce:true})`, then run `set(2, {persist:false})` before the timer
fires.  At fire time the in-memory `currentValue` is `2`, but the timer's
closure writes the value `1` it captured when armed — not the latest value
at fire time, contradicting the claim. -/
theorem fire_writes_stale_value_cex :
    ((SignalState.readyState (JVal.num 0) JVal.null none (JVal.num 0) []).set
        (JVal.num 1) true true false |>.set (JVal.num 2) false true false
      |>.currentValue) = JVal.num 2 ∧
    (SignalState.fireDebounce false
        ((SignalState.readyState (JVal.num 0) JVal.null none (JVal.num 0) []).set
          (JVal.num 1) true true false |>.set (JVal.num 2) false true false)
      |>.backendWrites) = [JVal.num 1] ∧
    (JVal.num 1 ≠ JVal.num 2) := by
  refine ⟨rfl, rfl, ?_⟩
  intro h; injection h with h'; omega

/-- C6 as amended: when the armed timer fires, the value written to the
backend (and recorded in `lastStorageValue`) is the value the `setTimeout`
closure captured when the timer was armed — the argument of the arming
`set` — not the store's `currentValue` at fire time; a `persist:false` set
between arming and firing changes `currentValue` but neither the timer nor
the value that will be written. -/
theorem fire_writes_captured_value (s : SignalState) (w v : JVal)
    (h : s.debounceTimeout = some w) :
    (SignalState.fireDebounce false s).backendWrites = s.backendWrites ++ [w] ∧
    (SignalState.fireDebounce false s).lastStorageValue = w ∧
    (SignalState.fireDebounce false s).currentValue = s.currentValue ∧
    (s.set v false true false).debounceTimeout = some w ∧
    (s.set v true true false).debounceTimeout = some v := by
  rw [SignalState.fireDebounce_armed false h]
  refine ⟨by simp [SignalState.persistToStorage],
    by simp [SignalState.persistToStorage],
    by simp [SignalState.persistToStorage], ?_, by simp⟩
  simp [SignalState.set, h]

/-- Witness for C6's amended theorem at a concrete armed state. -/
theorem fire_writes_captured_value_witness :
    ({ SignalState.readyState (JVal.num 2) JVal.null none (JVal.num 0) [] with
        debounceTimeout := some (JVal.num 1) } : SignalState).debounceTimeout =
      some (JVal.num 1) ∧
    ((SignalState.fireDebounce false
        { SignalState.readyState (JVal.num 2) JVal.null none (JVal.num 0) [] with
          debounceTimeout := some (JVal.num 1) }).backendWrites =
      ({ SignalState.readyState (JVal.num 2) JVal.null none (JVal.num 0) [] with
          debounceTimeout := some (JVal.num 1) } : SignalState).backendWrites ++
        [JVal.num 1] ∧
    (SignalState.fireDebounce false
        { SignalState.readyState (JVal.num 2) JVal.null none (JVal.num 0) [] with
          debounceTimeout := some (JVal.num 1) }).lastStorageValue = JVal.num 1 ∧
    (SignalState.fireDebounce false
        { SignalState.readyState (JVal.num 2) JVal.null none (JVal.num 0) [] with
          debounceTimeout := some (JVal.num 1) }).currentValue =
      ({ SignalState.readyState (JVal.num 2) JVal.null none (JVal.num 0) [] with
          debounceTimeout := some (JVal.num 1) } : SignalState).currentValue ∧
    (({ SignalState.readyState (JVal.num 2) JVal.null none (JVal.num 0) [] with
          debounceTimeout := some (JVal.num 1) } : SignalState).set (JVal.num 3)
        false true false).debounceTimeout = some (JVal.num 1) ∧
    (({ SignalState.readyState (JVal.num 2) JVal.null none (JVal.num 0) [] with
          debounceTimeout := some (JVal.num 1) } : SignalState).set (JVal.num 3)
        true true false).debounceTimeout = some (JVal.num 3)) :=
  ⟨rfl, fire_writes_captured_value _ (JVal.num 1) (JVal.num 3) rfl⟩

/-- Counterexample to C5: the two objects `{a:1, b:2}` and `{b:2, a:1}` are
structurally equal (same keys and nested values, property insertion order
aside), yet reconciliation compares `JSON.stringify` strings, which differ
for the two insertion orders, so with `lastStorageValue = {a:1,b:2}` and the
backend holding `{b:2,a:1}` the check judges them different: it returns
`true`, adopts the backend representation and notifies — not the claimed
`false` with no change and no notification. -/
theorem reconcile_insertion_order_cex :
    specDeepEqual (JVal.obj [(['a'], JVal.num 1), (['b'], JVal.num 2)])
      (JVal.obj [(['b'], JVal.num 2), (['a'], JVal.num 1)]) ∧
    (SignalState.checkForExternalChanges false
        (SignalState.readyState
          (JVal.obj [(['a'], JVal.num 1), (['b'], JVal.num 2)])
          (JVal.obj [(['a'], JVal.num 1), (['b'], JVal.num 2)])
          (some (JVal.obj [(['b'], JVal.num 2), (['a'], JVal.num 1)]))
          JVal.null [0])).2 = true ∧
    (SignalState.checkForExternalChanges false
        (SignalState.readyState
          (JVal.obj [(['a'], JVal.num 1), (['b'], JVal.num 2)])
          (JVal.obj [(['a'], JVal.num 1), (['b'], JVal.num 2)])
          (some (JVal.obj [(['b'], JVal.num 2), (['a'], JVal.num 1)]))
          JVal.null [0])).1.lastStorageValue =
      JVal.obj [(['b'], JVal.num 2), (['a'], JVal.num 1)] ∧
    (SignalState.checkForExternalChanges false
        (SignalState.readyState
          (JVal.obj [(['a'], JVal.num 1), (['b'], JVal.num 2)])
          (JVal.obj [(['a'], JVal.num 1), (['b'], JVal.num 2)])
          (some (JVal.obj [(['b'], JVal.num 2), (['a'], JVal.num 1)]))
          JVal.null [0])).1.notifications =
      [(0, JVal.obj [(['b'], JVal.num 2), (['a'], JVal.num 1)])] :=
  ⟨rfl, rfl, rfl, rfl⟩

/-- C5 as amended: the reconciliation comparison is `JSON.stringify`
string equality, not insertion-order-independent structural equality.  Values
whose serializations coincide (in particular structurally equal values whose
object properties are in the same insertion order) are judged equal: the
check returns `false` and leaves the state untouched.  Structurally equal
objects in different insertion order serialize differently and are treated
as an external change (see the counterexample). -/
theorem reconcile_serialization_equality (s : SignalState)
    (h : jstrL (s.backend.getD s.defaultValue) = jstrL s.lastStorageValue) :
    SignalState.checkForExternalChanges false s = (s, false) := by
  unfold SignalState.checkForExternalChanges
  simp [h]

/-- Witness for C5's amended theorem: backend and `lastStorageValue` hold
the very same object, so the serializations agree and the check reports no
change. -/
theorem reconcile_serialization_equality_witness :
    jstrL ((SignalState.readyState
        (JVal.obj [(['a'], JVal.num 1)]) (JVal.obj [(['a'], JVal.num 1)])
        (some (JVal.obj [(['a'], JVal.num 1)])) JVal.null [0]).backend.getD
      (SignalState.readyState
        (JVal.obj [(['a'], JVal.num 1)]) (JVal.obj [(['a'], JVal.num 1)])
        (some (JVal.obj [(['a'], JVal.num 1)])) JVal.null [0]).defaultValue) =
      jstrL (SignalState.readyState
        (JVal.obj [(['a'], JVal.num 1)]) (JVal.obj [(['a'], JVal.num 1)])
        (some (JVal.obj [(['a'], JVal.num 1)])) JVal.null [0]).lastStorageValue ∧
    SignalState.checkForExternalChanges false
      (SignalState.readyState
        (JVal.obj [(['a'], JVal.num 1)]) (JVal.obj [(['a'], JVal.num 1)])
        (some (JVal.obj [(['a'], JVal.num 1)])) JVal.null [0]) =
      (SignalState.readyState
        (JVal.obj [(['a'], JVal.num 1)]) (JVal.obj [(['a'], JVal.num 1)])
        (some (JVal.obj [(['a'], JVal.num 1)])) JVal.null [0], false) :=
  ⟨rfl, reconcile_serialization_equality _ rfl⟩

/-- Counterexample to C3: on a store still `Loading` (constructed, initial
load not yet resolved, so `isInitialized = false`), `subscribe` only
registers the callback — the immediate invocation is guarded by
`isInitialized`, so the callback is NOT invoked before `subscribe` returns,
contradicting the claim that it is invoked exactly once even while
Loading. -/
theorem subscribe_loading_not_invoked_cex :
    (SignalState.initState none (JVal.num 0)).isInitialized = false ∧
    (SignalState.subscribe 0 (SignalState.initState none (JVal.num 0))).notifications
      = [] ∧
    (SignalState.subscribe 0 (SignalState.initState none (JVal.num 0))).notifications
      ≠ [(0, JVal.num 0)] ∧
    (SignalState.subscribe 0 (SignalState.initState none (JVal.num 0))).subscribers
      = [0] := by
  refine ⟨rfl, rfl, ?_, rfl⟩
  rw [show (SignalState.subscribe 0
      (SignalState.initState none (JVal.num 0))).notifications = [] from rfl]
  simp

/-- C3 as amended: `HybridSignal.subscribe` invokes the callback
synchronously exactly once iff the store has initialized (reached `Ready`);
while `Loading` it only registers the callback, which is then notified when
the pending load resolves.  The `IndexedDBHybridSignal` variant instead
invokes the callback immediately in every state (its guard
`currentValue !== undefined` always holds for JSON values). -/
theorem subscribe_notifies_iff_initialized (s : SignalState) (cb : Nat) :
    (SignalState.subscribe cb s).notifications =
      s.notifications ++
        (if s.isInitialized then [(cb, s.currentValue)] else []) ∧
    (SignalState.subscribeIDB cb s).notifications =
      s.notifications ++ [(cb, s.currentValue)] ∧
    cb ∈ (SignalState.subscribe cb s).subscribers ∧
    (SignalState.loadResolve (SignalState.subscribe cb s)).notifications =
      (SignalState.subscribe cb s).notifications ++
        (SignalState.subscribe cb s).subscribers.map
          (fun c => (c, s.backend.getD s.defaultValue)) := by
  refine ⟨?_, rfl, ?_, ?_⟩
  · unfold SignalState.subscribe
    by_cases hInit : s.isInitialized <;>
      by_cases hc : s.subscribers.contains cb <;> simp [hInit, hc]
  · rw [SignalState.subscribe_subscribers]
    by_cases hc : s.subscribers.contains cb
    · have hm : cb ∈ s.subscribers := by simpa using hc
      simp [hc, hm]
    · have hm : cb ∉ s.subscribers := by simpa using hc
      simp [hc, hm]
  · unfold SignalState.loadResolve
    rw [SignalState.notify_notifications]
    simp

/-- C1: within one debounce window, a sequence of
`set(v, {persist:true, debounce:true})` calls leaves the backend-write trace
untouched; when the (single) armed timer fires, the backend receives exactly
one write, whose value is the last value set; and after any prefix of the
sequence the in-memory `currentValue` is the value of that prefix's last
call. -/
theorem set_debounce_coalesces (s : SignalState) (vs : List JVal) (i : Nat)
    (hne : vs ≠ []) (hi : i < vs.length) :
    (SignalState.setSeq vs s).backendWrites = s.backendWrites ∧
    (SignalState.fireDebounce false (SignalState.setSeq vs s)).backendWrites =
      s.backendWrites ++ [vs.getLastD JVal.null] ∧
    (SignalState.fireDebounce false (SignalState.setSeq vs s)).backend =
      some (vs.getLastD JVal.null) ∧
    (SignalState.setSeq (vs.take (i + 1)) s).currentValue = vs.getD i JVal.null := by
  obtain ⟨hw, hb, ht, hc⟩ := SignalState.setSeq_spec vs s hne
  have htake : vs.take (i + 1) ≠ [] := by
    cases vs with
    | nil => exact absurd rfl hne
    | cons v tl => simp
  obtain ⟨hw', _, _, hc'⟩ := SignalState.setSeq_spec (vs.take (i + 1)) s htake
  refine ⟨hw, ?_, ?_, ?_⟩
  · unfold SignalState.fireDebounce
    rw [ht]
    simp [SignalState.persistToStorage, hw]
  · unfold SignalState.fireDebounce
    rw [ht]
    simp [SignalState.persistToStorage]
  · rw [hc', SignalState.getLastD_take vs i JVal.null hi]

/-- C10: subscribing the same callback reference twice is idempotent (the
`Set` holds it once), a `notify` pass invokes it exactly once, one
`unsubscribe` removes it entirely, the second (now stale) `unsubscribe` is a
no-op, and afterwards `hasSubscribers` counts it no more. -/
theorem subscribe_same_callback_idempotent (s : SignalState) (cb : Nat)
    (h : cb ∉ s.subscribers) :
    (SignalState.subscribe cb s).subscribers = s.subscribers ++ [cb] ∧
    (SignalState.subscribe cb (SignalState.subscribe cb s)).subscribers =
      s.subscribers ++ [cb] ∧
    (SignalState.subscribe cb (SignalState.subscribe cb s)).subscribers.count cb
      = 1 ∧
    ((SignalState.notify
          (SignalState.subscribe cb (SignalState.subscribe cb s))).notifications.drop
        (SignalState.subscribe cb (SignalState.subscribe cb s)).notifications.length).countP
        (fun p => p.1 == cb) = (if s.isInitialized then 1 else 0) ∧
    (SignalState.unsubscribe cb
        (SignalState.subscribe cb (SignalState.subscribe cb s))).subscribers =
      s.subscribers ∧
    (SignalState.unsubscribe cb
        (SignalState.subscribe cb (SignalState.subscribe cb s))).subscribers.count cb
      = 0 ∧
    (SignalState.unsubscribe cb (SignalState.unsubscribe cb
        (SignalState.subscribe cb (SignalState.subscribe cb s)))).subscribers =
      s.subscribers ∧
    (SignalState.unsubscribe cb
        (SignalState.subscribe cb (SignalState.subscribe cb s))).hasSubscribers =
      s.hasSubscribers := by
  have hc : ¬ s.subscribers.contains cb = true := by simpa using h
  have h1 : (SignalState.subscribe cb s).subscribers = s.subscribers ++ [cb] := by
    rw [SignalState.subscribe_subscribers, if_neg hc]
  have hmem : cb ∈ (SignalState.subscribe cb s).subscribers := by simp [h1]
  have hc2 : (SignalState.subscribe cb s).subscribers.contains cb = true := by
    simpa using hmem
  have h2 : (SignalState.subscribe cb (SignalState.subscribe cb s)).subscribers =
      s.subscribers ++ [cb] := by
    rw [SignalState.subscribe_subscribers, if_pos hc2, h1]
  have hcount : (s.subscribers ++ [cb]).count cb = 1 := by
    simp [List.count_append, List.count_eq_zero_of_not_mem h]
  have herase : (s.subscribers ++ [cb]).erase cb = s.subscribers := by
    rw [List.erase_append_right _ h]
    simp
  have hunsub : (SignalState.unsubscribe cb
      (SignalState.subscribe cb (SignalState.subscribe cb s))).subscribers =
      s.subscribers := by
    unfold SignalState.unsubscribe
    rw [h2]
    exact herase
  refine ⟨h1, h2, by rw [h2]; exact hcount, ?_, hunsub, ?_, ?_, ?_⟩
  · unfold SignalState.notify
    by_cases hi : (SignalState.subscribe cb
        (SignalState.subscribe cb s)).isInitialized = true
    · rw [if_pos hi]
      have hi' : s.isInitialized = true := by simpa using hi
      rw [hi']
      simp only [List.drop_left]
      rw [List.countP_map]
      have : ((fun p => p.1 == cb) ∘
          fun c => ((c : Nat),
            (SignalState.subscribe cb (SignalState.subscribe cb s)).currentValue)) =
          (fun c => c == cb) := rfl
      rw [this, h2]
      simpa [List.count] using hcount
    · rw [if_neg hi]
      have hi' : s.isInitialized = false := by simpa using hi
      simp [hi']
  · rw [hunsub]
    exact List.count_eq_zero_of_not_mem h
  · rw [SignalState.unsubscribe_subscribers, hunsub]
    exact List.erase_of_not_mem h
  · unfold SignalState.hasSubscribers
    rw [hunsub]

/-- Witness for C10: a `Ready` store that already has one other subscriber
`7`, and the fresh callback `0`. -/
theorem subscribe_same_callback_idempotent_witness :
    ((0 : Nat) ∉
        (SignalState.readyState (JVal.num 0) JVal.null none (JVal.num 0) [7]).subscribers) ∧
    ((SignalState.subscribe 0
        (SignalState.readyState (JVal.num 0) JVal.null none (JVal.num 0) [7])).subscribers
      = [7] ++ [0] ∧
    (SignalState.subscribe 0 (SignalState.subscribe 0
        (SignalState.readyState (JVal.num 0) JVal.null none (JVal.num 0) [7]))).subscribers
      = [7] ++ [0] ∧
    (SignalState.subscribe 0 (SignalState.subscribe 0
        (SignalState.readyState (JVal.num 0) JVal.null none
          (JVal.num 0) [7]))).subscribers.count 0 = 1 ∧
    ((SignalState.notify (SignalState.subscribe 0 (SignalState.subscribe 0
          (SignalState.readyState (JVal.num 0) JVal.null none
            (JVal.num 0) [7])))).notifications.drop
        (SignalState.subscribe 0 (SignalState.subscribe 0
          (SignalState.readyState (JVal.num 0) JVal.null none
            (JVal.num 0) [7]))).notifications.length).countP (fun p => p.1 == 0) =
      (if (SignalState.readyState (JVal.num 0) JVal.null none
          (JVal.num 0) [7]).isInitialized then 1 else 0) ∧
    (SignalState.unsubscribe 0 (SignalState.subscribe 0 (SignalState.subscribe 0
        (SignalState.readyState (JVal.num 0) JVal.null none
          (JVal.num 0) [7])))).subscribers = [7] ∧
    (SignalState.unsubscribe 0 (SignalState.subscribe 0 (SignalState.subscribe 0
        (SignalState.readyState (JVal.num 0) JVal.null none
          (JVal.num 0) [7])))).subscribers.count 0 = 0 ∧
    (SignalState.unsubscribe 0 (SignalState.unsubscribe 0 (SignalState.subscribe 0
        (SignalState.subscribe 0 (SignalState.readyState (JVal.num 0) JVal.null none
          (JVal.num 0) [7]))))).subscribers = [7] ∧
    (SignalState.unsubscribe 0 (SignalState.subscribe 0 (SignalState.subscribe 0
        (SignalState.readyState (JVal.num 0) JVal.null none
          (JVal.num 0) [7])))).hasSubscribers =
      (SignalState.readyState (JVal.num 0) JVal.null none
        (JVal.num 0) [7]).hasSubscribers) :=
  ⟨by decide,
    subscribe_same_callback_idempotent
      (SignalState.readyState (JVal.num 0) JVal.null none (JVal.num 0) [7]) 0
      (by decide)⟩

lemma lookup_none_not_mem {reg : List (String × Nat)} {k : String}
    (h : reg.lookup k = none) : k ∉ reg.map Prod.fst := by
  induction reg with
  | nil => simp
  | cons p t ih =>
    obtain ⟨a, b⟩ := p
    by_cases hk : k == a
    · simp only [List.lookup, hk] at h
      exact Option.noConfusion h
    · have hb : (k == a) = false := by simpa using hk
      simp only [List.lookup, hb] at h
      have hne : k ≠ a := by simpa using hk
      simp [hne, ih h]

/-- C9: before any detach, a second attach for the same key returns the very
registry and store id the first attach produced (same instance, registry
unchanged); the registry keeps at most one entry per key; and a mutation
performed through the first handle is visible when reading through the
second handle, because both ids coincide. -/
theorem attach_returns_same_store (reg : List (String × Nat)) (k : String)
    (f1 f2 : Nat) (heap : Nat → SignalState) (v : JVal)
    (hnd : (reg.map Prod.fst).Nodup) :
    attach (attach reg k f1).1 k f2 = ((attach reg k f1).1, (attach reg k f1).2) ∧
    ((attach reg k f1).1.map Prod.fst).Nodup ∧
    ((attach reg k f1).1.map Prod.fst).count k ≤ 1 ∧
    (Function.update heap (attach reg k f1).2
        (SignalState.set v true true false (heap (attach reg k f1).2))
      (attach (attach reg k f1).1 k f2).2).currentValue = v := by
  have key : attach (attach reg k f1).1 k f2 =
      ((attach reg k f1).1, (attach reg k f1).2) ∧
      ((attach reg k f1).1.map Prod.fst).Nodup := by
    unfold attach
    cases hl : reg.lookup k with
    | some id => simp [hl, hnd]
    | none =>
      have hself : List.lookup k ((k, f1) :: reg) = some f1 := by
        simp [List.lookup]
      simp [hl, hself, hnd, lookup_none_not_mem hl]
  refine ⟨key.1, key.2, ?_, ?_⟩
  · exact List.nodup_iff_count_le_one.mp key.2 k
  · rw [key.1]
    simp [Function.update_same]

/-- Witness for C9: empty registry, key `"counter"`, two attaches with
distinct fresh ids `0` and `1`; the second attach returns id `0` and the
write through handle `0` is read back through the id the second attach
returned. -/
theorem attach_returns_same_store_witness :
    ((([] : List (String × Nat)).map Prod.fst).Nodup) ∧
    (attach (attach [] "counter" 0).1 "counter" 1 =
        ((attach [] "counter" 0).1, (attach [] "counter" 0).2) ∧
      (((attach [] "counter" 0).1.map Prod.fst).Nodup) ∧
      (((attach [] "counter" 0).1.map Prod.fst).count "counter" ≤ 1) ∧
      (Function.update (fun _ => SignalState.initState none JVal.null)
          (attach [] "counter" 0).2
          (SignalState.set (JVal.num 3) true true false
            ((fun _ => SignalState.initState none JVal.null)
              (attach [] "counter" 0).2))
        (attach (attach [] "counter" 0).1 "counter" 1).2).currentValue =
        JVal.num 3) :=
  ⟨by simp,
    attach_returns_same_store [] "counter" 0 1
      (fun _ => SignalState.initState none JVal.null) (JVal.num 3) (by simp)⟩

/-- Witness for C1 at the spec's own example `set(1); set(2); set(3)`. -/
theorem set_debounce_coalesces_witness :
    ([JVal.num 1, JVal.num 2, JVal.num 3] ≠ ([] : List JVal)) ∧
    (1 < ([JVal.num 1, JVal.num 2, JVal.num 3] : List JVal).length) ∧
    ((SignalState.setSeq [JVal.num 1, JVal.num 2, JVal.num 3]
        (SignalState.initState none (JVal.num 0))).backendWrites = [] ∧
      (SignalState.fireDebounce false
          (SignalState.setSeq [JVal.num 1, JVal.num 2, JVal.num 3]
            (SignalState.initState none (JVal.num 0)))).backendWrites =
        [] ++ [([JVal.num 1, JVal.num 2, JVal.num 3] : List JVal).getLastD JVal.null] ∧
      (SignalState.fireDebounce false
          (SignalState.setSeq [JVal.num 1, JVal.num 2, JVal.num 3]
            (SignalState.initState none (JVal.num 0)))).backend =
        some (([JVal.num 1, JVal.num 2, JVal.num 3] : List JVal).getLastD JVal.null) ∧
      (SignalState.setSeq (([JVal.num 1, JVal.num 2, JVal.num 3] : List JVal).take (1 + 1))
          (SignalState.initState none (JVal.num 0))).currentValue =
        ([JVal.num 1, JVal.num 2, JVal.num 3] : List JVal).getD 1 JVal.null) :=
  ⟨by simp, by simp,
    set_debounce_coalesces (SignalState.initState none (JVal.num 0))
      [JVal.num 1, JVal.num 2, JVal.num 3] 1 (by simp) (by simp)⟩

lemma digitChar_isDigit {n : Nat} (h : n < 10) : (digitChar n).isDigit = true := by
  interval_cases n <;> decide

lemma digitVal_digitChar {n : Nat} (h : n < 10) : digitVal (digitChar n) = n := by
  interval_cases n <;> decide

lemma natDigits_ne_nil (n : Nat) : natDigits n ≠ [] := by
  rw [natDigits]
  split <;> simp

lemma natDigits_digits (n : Nat) : ∀ c ∈ natDigits n, c.isDigit = true := by
  induction n using Nat.strong_induction_on with
  | _ n ih =>
    intro c hc
    rw [natDigits] at hc
    split at hc
    · next h =>
      simp only [List.mem_singleton] at hc
      subst hc
      exact digitChar_isDigit h
    · next h =>
      rw [List.mem_append] at hc
      rcases hc with hc | hc
      · exact ih (n / 10) (Nat.div_lt_self (by omega) (by omega)) c hc
      · simp only [List.mem_singleton] at hc
        subst hc
        exact digitChar_isDigit (Nat.mod_lt _ (by omega))

lemma natDigits_foldl (n : Nat) : ∀ a : Nat,
    (natDigits n).foldl (fun a c => 10 * a + digitVal c) a =
      a * 10 ^ (natDigits n).length + n := by
  induction n using Nat.strong_induction_on with
  | _ n ih =>
    intro a
    rw [natDigits]
    split
    · next h =>
      simp [digitVal_digitChar h]
      ring
    · next h =>
      have hlt : n / 10 < n := Nat.div_lt_self (by omega) (by omega)
      calc (natDigits (n / 10) ++ [digitChar (n % 10)]).foldl
              (fun a c => 10 * a + digitVal c) a
          = 10 * ((natDigits (n / 10)).foldl (fun a c => 10 * a + digitVal c) a)
              + digitVal (digitChar (n % 10)) := by
            rw [List.foldl_append]; rfl
        _ = 10 * (a * 10 ^ (natDigits (n / 10)).length + n / 10)
              + (n % 10) := by
            rw [ih (n / 10) hlt, digitVal_digitChar (Nat.mod_lt _ (by omega))]
        _ = a * (10 ^ (natDigits (n / 10)).length * 10)
              + (10 * (n / 10) + n % 10) := by ring
        _ = a * 10 ^ ((natDigits (n / 10)).length + 1) + n := by
            rw [Nat.div_add_mod, pow_succ]
      rw [List.length_append]
      rfl

lemma natDigits_inj {n m : Nat} (h : natDigits n = natDigits m) : n = m := by
  have h1 := natDigits_foldl n 0
  have h2 := natDigits_foldl m 0
  rw [h] at h1
  simp only [Nat.zero_mul, Nat.zero_add] at h1 h2
  omega

lemma digit_not_sep {c : Char} (h : c.isDigit = true) (l : List Char) :
    sepOk (c :: l) = false := by
  have h1 : c ≠ ',' := by rintro rfl; exact absurd h (by decide)
  have h2 : c ≠ ']' := by rintro rfl; exact absurd h (by decide)
  have h3 : c ≠ '}' := by rintro rfl; exact absurd h (by decide)
  have h4 : c ≠ ':' := by rintro rfl; exact absurd h (by decide)
  simp [sepOk, h1, h2, h3, h4]

lemma digits_append_cancel : ∀ (l1 l2 r s : List Char),
    (∀ c ∈ l1, c.isDigit = true) → (∀ c ∈ l2, c.isDigit = true) →
    sepOk r = true → sepOk s = true → l1 ++ r = l2 ++ s →
    l1 = l2 ∧ r = s := by
  intro l1
  induction l1 with
  | nil =>
    intro l2 r s _ h2 hr _ heq
    cases l2 with
    | nil => simpa using heq
    | cons d t2 =>
      simp only [List.nil_append, List.cons_append] at heq
      rw [heq, digit_not_sep (h2 d (by simp)) _] at hr
      cases hr
  | cons c t1 ih =>
    intro l2 r s h1 h2 hr hs heq
    cases l2 with
    | nil =>
      simp only [List.nil_append, List.cons_append] at heq
      rw [← heq, digit_not_sep (h1 c (by simp)) _] at hs
      cases hs
    | cons d t2 =>
      simp only [List.cons_append, List.cons.injEq] at heq
      obtain ⟨hcd, htail⟩ := heq
      obtain ⟨ht, hrs⟩ := ih t2 r s (fun x hx => h1 x (by simp [hx]))
        (fun x hx => h2 x (by simp [hx])) hr hs htail
      exact ⟨by rw [hcd, ht], hrs⟩

lemma natDigits_head (n : Nat) :
    ∃ c t, natDigits n = c :: t ∧ c.isDigit = true := by
  cases hd : natDigits n with
  | nil => exact absurd hd (natDigits_ne_nil n)
  | cons c t => exact ⟨c, t, rfl, natDigits_digits n c (by rw [hd]; simp)⟩

lemma intChars_append_cancel {n m : Int} {r s : List Char}
    (hr : sepOk r = true) (hs : sepOk s = true)
    (h : intChars n ++ r = intChars m ++ s) : n = m ∧ r = s := by
  unfold intChars at h
  by_cases hn : n < 0 <;> by_cases hm : m < 0
  · rw [if_pos hn, if_pos hm] at h
    simp only [List.cons_append, List.cons.injEq] at h
    obtain ⟨hd, hrs⟩ := digits_append_cancel _ _ _ _ (natDigits_digits _)
      (natDigits_digits _) hr hs h.2
    have habs : n.natAbs = m.natAbs := natDigits_inj hd
    exact ⟨by omega, hrs⟩
  · rw [if_pos hn, if_neg hm] at h
    obtain ⟨c, t, hct, hdig⟩ := natDigits_head m.toNat
    rw [hct] at h
    simp only [List.cons_append, List.cons.injEq] at h
    rw [← h.1] at hdig
    exact absurd hdig (by decide)
  · rw [if_neg hn, if_pos hm] at h
    obtain ⟨c, t, hct, hdig⟩ := natDigits_head n.toNat
    rw [hct] at h
    simp only [List.cons_append, List.cons.injEq] at h
    rw [h.1] at hdig
    exact absurd hdig (by decide)
  · rw [if_neg hn, if_neg hm] at h
    obtain ⟨hd, hrs⟩ := digits_append_cancel _ _ _ _ (natDigits_digits _)
      (natDigits_digits _) hr hs h
    have htn : n.toNat = m.toNat := natDigits_inj hd
    exact ⟨by omega, hrs⟩

lemma escapeL_cons (c : Char) (t : List Char) :
    escapeL (c :: t) = escChar c ++ escapeL t := rfl

lemma escChar_quote : escChar '"' = ['\\', '"'] := rfl

lemma escChar_backslash : escChar '\\' = ['\\', '\\'] := rfl

lemma escChar_other {c : Char} (h1 : c ≠ '"') (h2 : c ≠ '\\') :
    escChar c = [c] := by
  simp [escChar, h1, h2]

lemma escape_quote_cancel : ∀ (s t r u : List Char),
    escapeL s ++ '"' :: r = escapeL t ++ '"' :: u → s = t ∧ r = u := by
  intro s
  induction s with
  | nil =>
    intro t r u h
    cases t with
    | nil => simpa using h
    | cons d t' =>
      exfalso
      rw [escapeL_cons, List.append_assoc] at h
      simp only [escapeL] at h
      by_cases hd1 : d = '"'
      · subst hd1
        rw [escChar_quote] at h
        simp only [List.nil_append, List.cons_append, List.cons.injEq] at h
        exact absurd h.1 (by decide)
      · by_cases hd2 : d = '\\'
        · subst hd2
          rw [escChar_backslash] at h
          simp only [List.nil_append, List.cons_append, List.cons.injEq] at h
          exact absurd h.1 (by decide)
        · rw [escChar_other hd1 hd2] at h
          simp only [List.nil_append, List.cons_append, List.cons.injEq] at h
          exact hd1 h.1.symm
  | cons c s' ih =>
    intro t r u h
    cases t with
    | nil =>
      exfalso
      rw [escapeL_cons, List.append_assoc] at h
      simp only [escapeL] at h
      by_cases hc1 : c = '"'
      · subst hc1
        rw [escChar_quote] at h
        simp only [List.nil_append, List.cons_append, List.cons.injEq] at h
        exact absurd h.1 (by decide)
      · by_cases hc2 : c = '\\'
        · subst hc2
          rw [escChar_backslash] at h
          simp only [List.nil_append, List.cons_append, List.cons.injEq] at h
          exact absurd h.1 (by decide)
        · rw [escChar_other hc1 hc2] at h
          simp only [List.nil_append, List.cons_append, List.cons.injEq] at h
          exact hc1 h.1
    | cons d t' =>
      rw [escapeL_cons, escapeL_cons, List.append_assoc, List.append_assoc] at h
      by_cases hc1 : c = '"'
      · subst hc1
        by_cases hd1 : d = '"'
        · subst hd1
          rw [escChar_quote] at h
          simp only [List.cons_append, List.nil_append, List.cons.injEq,
            true_and] at h
          obtain ⟨h1, h2⟩ := ih t' r u h
          exact ⟨by rw [h1], h2⟩
        · by_cases hd2 : d = '\\'
          · subst hd2
            rw [escChar_quote, escChar_backslash] at h
            simp only [List.cons_append, List.nil_append, List.cons.injEq] at h
            exact absurd h.2.1 (by decide)
          · rw [escChar_quote, escChar_other hd1 hd2] at h
            simp only [List.cons_append, List.nil_append, List.cons.injEq] at h
            exact absurd h.1.symm hd2
      · by_cases hc2 : c = '\\'
        · subst hc2
          by_cases hd1 : d = '"'
          · subst hd1
            rw [escChar_backslash, escChar_quote] at h
            simp only [List.cons_append, List.nil_append, List.cons.injEq] at h
            exact absurd h.2.1 (by decide)
          · by_cases hd2 : d = '\\'
            · subst hd2
              rw [escChar_backslash] at h
              simp only [List.cons_append, List.nil_append, List.cons.injEq,
                true_and] at h
              obtain ⟨h1, h2⟩ := ih t' r u h
              exact ⟨by rw [h1], h2⟩
            · rw [escChar_backslash, escChar_other hd1 hd2] at h
              simp only [List.cons_append, List.nil_append, List.cons.injEq] at h
              exact absurd h.1.symm hd2
        · by_cases hd1 : d = '"'
          · subst hd1
            rw [escChar_quote, escChar_other hc1 hc2] at h
            simp only [List.cons_append, List.nil_append, List.cons.injEq] at h
            exact absurd h.1 hc2
          · by_cases hd2 : d = '\\'
            · subst hd2
              rw [escChar_backslash, escChar_other hc1 hc2] at h
              simp only [List.cons_append, List.nil_append, List.cons.injEq] at h
              exact absurd h.1 hc2
            · rw [escChar_other hc1 hc2, escChar_other hd1 hd2] at h
              simp only [List.cons_append, List.nil_append, List.cons.injEq] at h
              obtain ⟨h1, h2⟩ := ih t' r u h.2
              exact ⟨by rw [h.1, h1], h2⟩

lemma chtag_digit {c : Char} (h : c.isDigit = true) : chtag c = 2 := by
  have h1 : c ≠ 'n' := by rintro rfl; exact absurd h (by decide)
  have h2 : c ≠ 't' := by rintro rfl; exact absurd h (by decide)
  have h3 : c ≠ 'f' := by rintro rfl; exact absurd h (by decide)
  simp [chtag, h1, h2, h3, h]

lemma jtag_lt_six (v : JVal) : jtag v < 6 := by
  cases v <;> simp [jtag]

lemma jstrL_head : ∀ v : JVal, ∃ c t, jstrL v = c :: t ∧ chtag c = jtag v := by
  intro v
  cases v with
  | null => exact ⟨'n', ['u', 'l', 'l'], rfl, by decide⟩
  | bool b =>
    cases b with
    | false => exact ⟨'f', ['a', 'l', 's', 'e'], rfl, by decide⟩
    | true => exact ⟨'t', ['r', 'u', 'e'], rfl, by decide⟩
  | num n =>
    show ∃ c t, intChars n = c :: t ∧ chtag c = 2
    unfold intChars
    by_cases hn : n < 0
    · rw [if_pos hn]
      exact ⟨'-', natDigits n.natAbs, rfl, by decide⟩
    · rw [if_neg hn]
      obtain ⟨c, t, hct, hdig⟩ := natDigits_head n.toNat
      exact ⟨c, t, hct, chtag_digit hdig⟩
  | str s => exact ⟨'"', escapeL s ++ ['"'], rfl, by simp [chtag, jtag]⟩
  | arr xs => exact ⟨'[', jstrArr xs ++ [']'], rfl, by simp [chtag, jtag]⟩
  | obj kvs => exact ⟨'{', jstrObj kvs ++ ['}'], rfl, by simp [chtag, jtag]⟩

lemma jstrArr_cons (x : JVal) (xt : List JVal) :
    jstrArr (x :: xt) =
      jstrL x ++ (if xt.isEmpty then [] else ',' :: jstrArr xt) := by
  cases xt <;> simp [jstrArr]

lemma jstrObj_cons (k : List Char) (v : JVal) (t : List (List Char × JVal)) :
    jstrObj ((k, v) :: t) =
      ('"' :: (escapeL k ++ '"' :: ':' :: jstrL v)) ++
        (if t.isEmpty then [] else ',' :: jstrObj t) := by
  cases t <;> simp [jstrObj]

lemma sep_after_item {α : Type} (cl : Char) (xt : List α) (tail : List Char)
    (r : List Char) (hcl : ((cl == ',') || (cl == ']') || (cl == '}') || (cl == ':')) = true) :
    sepOk ((if xt.isEmpty then [] else ',' :: tail) ++ cl :: r) = true := by
  cases xt <;> simp [sepOk, hcl]

theorem jstr_cancel_main : ∀ N : Nat,
    (∀ v w : JVal, ∀ r s : List Char, sizeOf v ≤ N → sepOk r = true →
      sepOk s = true → jstrL v ++ r = jstrL w ++ s → v = w ∧ r = s) ∧
    (∀ xs ys : List JVal, ∀ r s : List Char, sizeOf xs ≤ N →
      jstrArr xs ++ ']' :: r = jstrArr ys ++ ']' :: s → xs = ys ∧ r = s) ∧
    (∀ kvs lvs : List (List Char × JVal), ∀ r s : List Char, sizeOf kvs ≤ N →
      jstrObj kvs ++ '}' :: r = jstrObj lvs ++ '}' :: s → kvs = lvs ∧ r = s) := by
  intro N
  induction N using Nat.strong_induction_on with
  | _ N ih =>
    refine ⟨?_, ?_, ?_⟩
    · intro v w r s hsz hr hs heq
      have htag : jtag v = jtag w := by
        obtain ⟨c, t1, hc, hcc⟩ := jstrL_head v
        obtain ⟨d, t2, hd, hdd⟩ := jstrL_head w
        rw [hc, hd] at heq
        simp only [List.cons_append, List.cons.injEq] at heq
        rw [← hcc, ← hdd, heq.1]
      cases v with
      | null =>
        cases w with
        | null =>
          simp only [jstrL, List.cons_append, List.cons.injEq, true_and] at heq
          exact ⟨rfl, heq⟩
        | bool b => exact absurd htag (by simp [jtag])
        | num n => exact absurd htag (by simp [jtag])
        | str a => exact absurd htag (by simp [jtag])
        | arr xs => exact absurd htag (by simp [jtag])
        | obj kvs => exact absurd htag (by simp [jtag])
      | bool b =>
        cases w with
        | null => exact absurd htag (by simp [jtag])
        | bool b' =>
          cases b with
          | true =>
            cases b' with
            | true =>
              simp only [jstrL, List.cons_append, List.cons.injEq, true_and] at heq
              exact ⟨rfl, heq⟩
            | false =>
              simp only [jstrL, List.cons_append, List.cons.injEq] at heq
              exact absurd heq.1 (by decide)
          | false =>
            cases b' with
            | true =>
              simp only [jstrL, List.cons_append, List.cons.injEq] at heq
              exact absurd heq.1 (by decide)
            | false =>
              simp only [jstrL, List.cons_append, List.cons.injEq, true_and] at heq
              exact ⟨rfl, heq⟩
        | num n => exact absurd htag (by simp [jtag])
        | str a => exact absurd htag (by simp [jtag])
        | arr xs => exact absurd htag (by simp [jtag])
        | obj kvs => exact absurd htag (by simp [jtag])
      | num n =>
        cases w with
        | null => exact absurd htag (by simp [jtag])
        | bool b => exact absurd htag (by simp [jtag])
        | num m =>
          simp only [jstrL] at heq
          obtain ⟨hnm, hrs⟩ := intChars_append_cancel hr hs heq
          exact ⟨by rw [hnm], hrs⟩
        | str a => exact absurd htag (by simp [jtag])
        | arr xs => exact absurd htag (by simp [jtag])
        | obj kvs => exact absurd htag (by simp [jtag])
      | str a =>
        cases w with
        | null => exact absurd htag (by simp [jtag])
        | bool b => exact absurd htag (by simp [jtag])
        | num m => exact absurd htag (by simp [jtag])
        | str a' =>
          simp only [jstrL, List.cons_append, List.append_assoc,
            List.singleton_append, List.cons.injEq, true_and] at heq
          obtain ⟨hk, hrs⟩ := escape_quote_cancel a a' r s heq
          exact ⟨by rw [hk], hrs⟩
        | arr xs => exact absurd htag (by simp [jtag])
        | obj kvs => exact absurd htag (by simp [jtag])
      | arr xs =>
        cases w with
        | null => exact absurd htag (by simp [jtag])
        | bool b => exact absurd htag (by simp [jtag])
        | num m => exact absurd htag (by simp [jtag])
        | str a => exact absurd htag (by simp [jtag])
        | arr ys =>
          simp only [jstrL, List.cons_append, List.append_assoc,
            List.singleton_append, List.cons.injEq, true_and] at heq
          have hlt : sizeOf xs < N := by simp at hsz; omega
          obtain ⟨hxy, hrs⟩ := (ih (sizeOf xs) hlt).2.1 xs ys r s le_rfl heq
          exact ⟨by rw [hxy], hrs⟩
        | obj kvs => exact absurd htag (by simp [jtag])
      | obj kvs =>
        cases w with
        | null => exact absurd htag (by simp [jtag])
        | bool b => exact absurd htag (by simp [jtag])
        | num m => exact absurd htag (by simp [jtag])
        | str a => exact absurd htag (by simp [jtag])
        | arr xs => exact absurd htag (by simp [jtag])
        | obj lvs =>
          simp only [jstrL, List.cons_append, List.append_assoc,
            List.singleton_append, List.cons.injEq, true_and] at heq
          have hlt : sizeOf kvs < N := by simp at hsz; omega
          obtain ⟨hkl, hrs⟩ := (ih (sizeOf kvs) hlt).2.2 kvs lvs r s le_rfl heq
          exact ⟨by rw [hkl], hrs⟩
    · intro xs ys r s hsz heq
      cases xs with
      | nil =>
        cases ys with
        | nil => simpa using heq
        | cons y yt =>
          exfalso
          obtain ⟨c, t, hct, htag⟩ := jstrL_head y
          rw [jstrArr_cons, hct] at heq
          simp only [jstrArr, List.nil_append, List.cons_append,
            List.append_assoc, List.cons.injEq] at heq
          have hy := jtag_lt_six y
          rw [← htag, ← heq.1] at hy
          exact absurd hy (by decide)
      | cons x xt =>
        cases ys with
        | nil =>
          exfalso
          obtain ⟨c, t, hct, htag⟩ := jstrL_head x
          rw [jstrArr_cons, hct] at heq
          simp only [jstrArr, List.nil_append, List.cons_append,
            List.append_assoc, List.cons.injEq] at heq
          have hx := jtag_lt_six x
          rw [← htag, heq.1] at hx
          exact absurd hx (by decide)
        | cons y yt =>
          rw [jstrArr_cons, jstrArr_cons, List.append_assoc,
            List.append_assoc] at heq
          have hsepx := sep_after_item ']' xt (jstrArr xt) r (by decide)
          have hsepy := sep_after_item ']' yt (jstrArr yt) s (by decide)
          have hltx : sizeOf x < N := by simp at hsz; omega
          obtain ⟨hxy, htail⟩ := (ih (sizeOf x) hltx).1 x y _ _ le_rfl hsepx
            hsepy heq
          cases xt with
          | nil =>
            cases yt with
            | nil =>
              simp only [List.isEmpty_nil, ite_true, List.nil_append,
                List.cons.injEq, true_and] at htail
              exact ⟨by rw [hxy], htail⟩
            | cons q qt =>
              exfalso
              simp at htail
          | cons p pt =>
            cases yt with
            | nil =>
              exfalso
              simp at htail
            | cons q qt =>
              simp only [List.isEmpty_cons, Bool.false_eq_true, if_false,
                List.cons_append, List.cons.injEq, true_and] at htail
              have hltt : sizeOf (p :: pt) < N := by simp at hsz ⊢; omega
              obtain ⟨ht, hrs⟩ := (ih (sizeOf (p :: pt)) hltt).2.1 (p :: pt)
                (q :: qt) r s le_rfl htail
              exact ⟨by rw [hxy, ht], hrs⟩
    · intro kvs lvs r s hsz heq
      cases kvs with
      | nil =>
        cases lvs with
        | nil => simpa using heq
        | cons e t =>
          exfalso
          obtain ⟨k, v⟩ := e
          rw [jstrObj_cons] at heq
          simp only [jstrObj, List.nil_append, List.cons_append,
            List.append_assoc, List.cons.injEq] at heq
          exact absurd heq.1 (by decide)
      | cons e t =>
        obtain ⟨k, v⟩ := e
        cases lvs with
        | nil =>
          exfalso
          rw [jstrObj_cons] at heq
          simp only [jstrObj, List.nil_append, List.cons_append,
            List.append_assoc, List.cons.injEq] at heq
          exact absurd heq.1 (by decide)
        | cons e' t' =>
          obtain ⟨k', v'⟩ := e'
          rw [jstrObj_cons, jstrObj_cons, List.append_assoc,
            List.append_assoc] at heq
          simp only [List.cons_append, List.append_assoc,
            List.cons.injEq, true_and] at heq
          obtain ⟨hk, hrest⟩ := escape_quote_cancel k k' _ _ heq
          simp only [List.cons.injEq, true_and] at hrest
          have hsepv := sep_after_item '}' t (jstrObj t) r (by decide)
          have hsepv' := sep_after_item '}' t' (jstrObj t') s (by decide)
          have hltv : sizeOf v < N := by simp at hsz; omega
          obtain ⟨hvv, htail⟩ := (ih (sizeOf v) hltv).1 v v' _ _ le_rfl hsepv
            hsepv' hrest
          cases t with
          | nil =>
            cases t' with
            | nil =>
              simp only [List.isEmpty_nil, ite_true, List.nil_append,
                List.cons.injEq, true_and] at htail
              exact ⟨by rw [hk, hvv], htail⟩
            | cons q qt =>
              exfalso
              simp at htail
          | cons p pt =>
            cases t' with
            | nil =>
              exfalso
              simp at htail
            | cons q qt =>
              simp only [List.isEmpty_cons, Bool.false_eq_true, if_false,
                List.cons_append, List.cons.injEq, true_and] at htail
              have hltt : sizeOf (p :: pt) < N := by simp at hsz ⊢; omega
              obtain ⟨ht, hrs⟩ := (ih (sizeOf (p :: pt)) hltt).2.2 (p :: pt)
                (q :: qt) r s le_rfl htail
              exact ⟨by rw [hk, hvv, ht], hrs⟩

/-- The `JSON.stringify` serialization is injective on JSON values: equal
serializations come from equal values. -/
theorem jstrL_inj {a b : JVal} (h : jstrL a = jstrL b) : a = b := by
  have hm := (jstr_cancel_main (sizeOf a)).1 a b [] [] le_rfl rfl rfl
    (by rw [List.append_nil, List.append_nil, h])
  exact hm.1

/-- Counterexample to C2: on a store still `Loading` (initial load not yet
resolved, `isInitialized = false`) that already has a subscriber, an external
backend write of `7` (differing from the last-known durable value `null`)
makes the next reconciliation check adopt `7` and return `true`, but
`notify()` is a no-op before initialization, so the subscriber is NOT
notified — the claim's "notifies subscribers" conjunct fails for this
store. -/
theorem reconcile_loading_no_notify_cex :
    (SignalState.subscribe 0 (SignalState.initState none (JVal.num 0))).subscribers
      = [0] ∧
    (SignalState.subscribe 0 (SignalState.initState none (JVal.num 0))).isInitialized
      = false ∧
    (JVal.str ['x'] ≠
      (SignalState.subscribe 0
        (SignalState.initState none (JVal.num 0))).lastStorageValue) ∧
    (SignalState.checkForExternalChanges false
        (SignalState.externalWrite (JVal.str ['x'])
          (SignalState.subscribe 0 (SignalState.initState none (JVal.num 0))))).2
      = true ∧
    (SignalState.checkForExternalChanges false
        (SignalState.externalWrite (JVal.str ['x'])
          (SignalState.subscribe 0
            (SignalState.initState none (JVal.num 0))))).1.currentValue
      = JVal.str ['x'] ∧
    (SignalState.checkForExternalChanges false
        (SignalState.externalWrite (JVal.str ['x'])
          (SignalState.subscribe 0
            (SignalState.initState none (JVal.num 0))))).1.notifications
      = [] :=
  ⟨rfl, rfl, fun h => JVal.noConfusion h, rfl, rfl, rfl⟩

/-- C2 as amended: a write `y` that bypasses the store and differs from the
store's last-known durable value makes the next reconciliation check adopt
`y` as `currentValue` and `lastStorageValue` and return `true`; subscribers
are notified with `y` if and only if the store has initialized (while
`Loading` the adoption happens silently, `notify()` being a no-op before
initialization).  An immediately following check with no intervening backend
change returns `false` and leaves the state exactly unchanged. -/
theorem reconcile_detects_external_write (s : SignalState) (y : JVal)
    (hy : y ≠ s.lastStorageValue) :
    (SignalState.checkForExternalChanges false
        (SignalState.externalWrite y s)).2 = true ∧
    (SignalState.checkForExternalChanges false
        (SignalState.externalWrite y s)).1.currentValue = y ∧
    (SignalState.checkForExternalChanges false
        (SignalState.externalWrite y s)).1.lastStorageValue = y ∧
    (SignalState.checkForExternalChanges false
        (SignalState.externalWrite y s)).1.notifications =
      s.notifications ++
        (if s.isInitialized then s.subscribers.map (fun cb => (cb, y))
         else []) ∧
    SignalState.checkForExternalChanges false
        (SignalState.checkForExternalChanges false
          (SignalState.externalWrite y s)).1 =
      ((SignalState.checkForExternalChanges false
          (SignalState.externalWrite y s)).1, false) := by
  have hne : jstrL y ≠ jstrL s.lastStorageValue := fun h => hy (jstrL_inj h)
  have hc1 : SignalState.checkForExternalChanges false
      (SignalState.externalWrite y s) =
      (SignalState.notify
        { s with backend := some y, lastStorageValue := y, currentValue := y },
        true) := by
    unfold SignalState.checkForExternalChanges SignalState.externalWrite
    simp [hne]
  rw [hc1]
  refine ⟨rfl, by simp, by simp, ?_, ?_⟩
  · rw [SignalState.notify_notifications]
  · unfold SignalState.checkForExternalChanges
    simp

/-- Witness for C2's amended theorem: `Ready` store whose durable snapshot
is `5`, external write of `7`; the initialized branch of the notification
conjunct is exercised. -/
theorem reconcile_detects_external_write_witness :
    (JVal.num 7 ≠ (SignalState.readyState (JVal.num 5) (JVal.num 5)
        (some (JVal.num 5)) JVal.null [0]).lastStorageValue) ∧
    ((SignalState.checkForExternalChanges false
        (SignalState.externalWrite (JVal.num 7)
          (SignalState.readyState (JVal.num 5) (JVal.num 5) (some (JVal.num 5))
            JVal.null [0]))).2 = true ∧
    (SignalState.checkForExternalChanges false
        (SignalState.externalWrite (JVal.num 7)
          (SignalState.readyState (JVal.num 5) (JVal.num 5) (some (JVal.num 5))
            JVal.null [0]))).1.currentValue = JVal.num 7 ∧
    (SignalState.checkForExternalChanges false
        (SignalState.externalWrite (JVal.num 7)
          (SignalState.readyState (JVal.num 5) (JVal.num 5) (some (JVal.num 5))
            JVal.null [0]))).1.lastStorageValue = JVal.num 7 ∧
    (SignalState.checkForExternalChanges false
        (SignalState.externalWrite (JVal.num 7)
          (SignalState.readyState (JVal.num 5) (JVal.num 5) (some (JVal.num 5))
            JVal.null [0]))).1.notifications =
      (SignalState.readyState (JVal.num 5) (JVal.num 5) (some (JVal.num 5))
        JVal.null [0]).notifications ++
        (if (SignalState.readyState (JVal.num 5) (JVal.num 5) (some (JVal.num 5))
            JVal.null [0]).isInitialized then
          (SignalState.readyState (JVal.num 5) (JVal.num 5) (some (JVal.num 5))
            JVal.null [0]).subscribers.map (fun cb => (cb, JVal.num 7))
         else []) ∧
    SignalState.checkForExternalChanges false
        (SignalState.checkForExternalChanges false
          (SignalState.externalWrite (JVal.num 7)
            (SignalState.readyState (JVal.num 5) (JVal.num 5) (some (JVal.num 5))
              JVal.null [0]))).1 =
      ((SignalState.checkForExternalChanges false
          (SignalState.externalWrite (JVal.num 7)
            (SignalState.readyState (JVal.num 5) (JVal.num 5) (some (JVal.num 5))
              JVal.null [0]))).1, false)) :=
  ⟨fun h => absurd (JVal.num.inj h) (by norm_num),
    reconcile_detects_external_write
      (SignalState.readyState (JVal.num 5) (JVal.num 5) (some (JVal.num 5))
        JVal.null [0]) (JVal.num 7)
      (fun h => absurd (JVal.num.inj h) (by norm_num))⟩
